import Mathlib

/-!
Shallow embedding of the Tanzu AI Services credential-resolution module
(`crates/goose/src/providers/tanzu.rs`) and verification of its spec claims.

The embedding covers:
  - a JSON value model mirroring `serde_json::Value` for the parts the code
    touches (`get`, `as_str`, `as_array`), together with an executable JSON
    text parser standing in for `serde_json::from_str` (returning `none` on
    malformed input, like `.ok()`);
  - `TanzuCredentials` and the resolution pipeline `resolve_credentials`,
    `parse_vcap_services`, `parse_binding_credentials`, `strip_openai_suffix`;
  - the host derivation performed in `from_env` (`derive_host`);
  - the model-discovery filter `filter_chat_models`.

Process configuration (the `Config::global()` lookups and the environment
variables read by the Rust code) is modelled as an explicit record of
optional string values passed to the resolver.
-/

/-- JSON values as manipulated by the Rust code via `serde_json::Value`.
Numbers keep their source lexeme; the code never inspects numeric values. -/
inductive Json where
  | null : Json
  | bool (b : Bool) : Json
  | num (lexeme : String) : Json
  | str (s : String) : Json
  | arr (items : List Json) : Json
  | obj (fields : List (String × Json)) : Json

/-- Model of `serde_json::Value::get(key)`: field lookup on objects,
`none` on every other value kind. -/
def Json.get : Json → String → Option Json
  | .obj fields, key => fields.lookup key
  | _, _ => none

/-- Model of `Value::as_str`. -/
def Json.asStr : Json → Option String
  | .str s => some s
  | _ => none

/-- Model of `Value::as_array`. -/
def Json.asArray : Json → Option (List Json)
  | .arr items => some items
  | _ => none

/-- Convenience for the Rust idiom `v.get(key).and_then(|x| x.as_str())`. -/
def Json.getStr (v : Json) (key : String) : Option String :=
  (v.get key).bind Json.asStr

/-- The resolved credential record (`TanzuCredentials` in the source). -/
structure TanzuCredentials where
  endpoint_base : String
  api_key : String
  config_url : Option String
  model_name : Option String
deriving DecidableEq

/-- An advertised model from the config endpoint (`AdvertisedModel`). -/
structure AdvertisedModel where
  name : String
  capabilities : List String
deriving DecidableEq

/-- Model of Rust `str::trim_end_matches('/')` : remove every trailing
occurrence of the character. -/
def dropTrailingSlashes (l : List Char) : List Char :=
  (l.reverse.dropWhile (fun c => c == '/')).reverse

/-- Repeatedly remove the suffix `pat` from the end of `l`, as Rust
`str::trim_end_matches(pat)` does; `fuel` bounds the number of removals
(the input length always suffices, since each removal shortens the list). -/
def trimEndAll (pat : List Char) : Nat → List Char → List Char
  | 0, l => l
  | n + 1, l =>
    if pat.isSuffixOf l then trimEndAll pat n (l.take (l.length - pat.length)) else l

/-- The character list of the literal suffix `"/openai"`. -/
def openaiSuffix : List Char := ['/', 'o', 'p', 'e', 'n', 'a', 'i']

/-- Model of `strip_openai_suffix`:
`api_base.trim_end_matches('/').trim_end_matches("/openai")`. -/
def strip_openai_suffix (api_base : String) : String :=
  String.mk (trimEndAll openaiSuffix (dropTrailingSlashes api_base.data).length
    (dropTrailingSlashes api_base.data))

/-- Host derivation inlined in `from_env`:
`format!("{}/openai", creds.endpoint_base.trim_end_matches('/'))`. -/
def derive_host (endpoint_base : String) : String :=
  String.mk (dropTrailingSlashes endpoint_base.data) ++ "/openai"

/-- Boolean string-suffix test (`pat` is a suffix of `s`). -/
def strEndsWith (s pat : String) : Bool :=
  pat.data.isSuffixOf s.data

/-- Boolean substring test, used to state that the configuration error
message names both remediation options. -/
def containsSub (pat : List Char) : List Char → Bool
  | [] => pat.isEmpty
  | c :: t => pat.isPrefixOf (c :: t) || containsSub pat t

/-- Model of `parse_binding_credentials`: structural schema detection.
Variant A (an `endpoint` key is present) reads `endpoint.api_base` and
`endpoint.api_key` verbatim; Variant B (no `endpoint` key) reads the
top-level fields and normalizes `api_base` with `strip_openai_suffix`. -/
def parse_binding_credentials (creds : Json) : Option TanzuCredentials :=
  match creds.get "endpoint" with
  | some endpoint =>
    match (endpoint.get "api_base").bind Json.asStr,
          (endpoint.get "api_key").bind Json.asStr with
    | some endpoint_base, some key =>
      some { endpoint_base := endpoint_base
             api_key := key
             config_url := endpoint.getStr "config_url"
             model_name := creds.getStr "model_name" }
    | _, _ => none
  | none =>
    match (creds.get "api_base").bind Json.asStr,
          (creds.get "api_key").bind Json.asStr with
    | some api_base, some key =>
      some { endpoint_base := strip_openai_suffix api_base
             api_key := key
             config_url := none
             model_name := creds.getStr "model_name" }
    | _, _ => none

/-- Binding selection inside `parse_vcap_services`: with an override name,
the first array element whose `name` field equals it; otherwise the first
element. -/
def select_binding (bindingName : Option String) (bs : List Json) : Option Json :=
  match bindingName with
  | some name =>
    bs.find? (fun b =>
      match (b.get "name").bind Json.asStr with
      | some n => n == name
      | none => false)
  | none => bs.head?

/-- Structural part of `parse_vcap_services`, applied to the decoded
catalog value. -/
def parse_vcap_json (bindingName : Option String) (vcap : Json) : Option TanzuCredentials :=
  match (vcap.get "genai").bind Json.asArray with
  | some bs =>
    match select_binding bindingName bs with
    | some binding => (binding.get "credentials").bind parse_binding_credentials
    | none => none
  | none => none

/-- Whitespace recognized by the JSON grammar. -/
def isJsonWs (c : Char) : Bool :=
  c == ' ' || c == '\n' || c == '\r' || c == '\t'

/-- Skip insignificant whitespace. -/
def skipWs (l : List Char) : List Char :=
  l.dropWhile isJsonWs

/-- Hexadecimal digit value, for string escapes. -/
def hexVal (c : Char) : Option Nat :=
  if '0' ≤ c ∧ c ≤ '9' then some (c.toNat - 48)
  else if 'a' ≤ c ∧ c ≤ 'f' then some (c.toNat - 87)
  else if 'A' ≤ c ∧ c ≤ 'F' then some (c.toNat - 55)
  else none

/-- Single-character JSON string escapes. -/
def escChar : Char → Option Char
  | '"' => some '"'
  | '\\' => some '\\'
  | '/' => some '/'
  | 'b' => some (Char.ofNat 8)
  | 'f' => some (Char.ofNat 12)
  | 'n' => some '\n'
  | 'r' => some '\r'
  | 't' => some '\t'
  | _ => none

/-- Parse the body of a JSON string literal (after the opening quote),
returning the decoded characters and the remaining input. -/
def parseStrChars : List Char → Option (List Char × List Char)
  | [] => none
  | '"' :: rest => some ([], rest)
  | '\\' :: esc =>
    match esc with
    | 'u' :: a :: b :: c :: d :: rest =>
      match hexVal a, hexVal b, hexVal c, hexVal d with
      | some ha, some hb, some hc, some hd =>
        match parseStrChars rest with
        | some (cs, r) =>
          some (Char.ofNat (((ha * 16 + hb) * 16 + hc) * 16 + hd) :: cs, r)
        | none => none
      | _, _, _, _ => none
    | e :: rest =>
      match escChar e with
      | some ec =>
        match parseStrChars rest with
        | some (cs, r) => some (ec :: cs, r)
        | none => none
      | none => none
    | [] => none
  | c :: rest =>
    if c.toNat < 32 then none
    else
      match parseStrChars rest with
      | some (cs, r) => some (c :: cs, r)
      | none => none

/-- Parse an optional JSON fraction part, returning its lexeme. -/
def parseFrac : List Char → Option (List Char × List Char)
  | '.' :: t =>
    match t.takeWhile Char.isDigit with
    | [] => none
    | fs => some ('.' :: fs, t.drop fs.length)
  | l => some ([], l)

/-- Parse an optional JSON exponent part, returning its lexeme. -/
def parseExp : List Char → Option (List Char × List Char)
  | c :: t =>
    if c == 'e' || c == 'E' then
      match (match t with
             | '+' :: u => ((['+'] : List Char), u)
             | '-' :: u => ((['-'] : List Char), u)
             | _ => (([] : List Char), t)) with
      | (sg, t1) =>
        match t1.takeWhile Char.isDigit with
        | [] => none
        | es => some (c :: (sg ++ es), t1.drop es.length)
    else some ([], c :: t)
  | [] => some ([], [])

/-- Parse a JSON number, keeping the lexeme. -/
def parseNumber (l : List Char) : Option (String × List Char) :=
  match (match l with
         | '-' :: t => ((['-'] : List Char), t)
         | _ => (([] : List Char), l)) with
  | (sgn, l1) =>
    match l1.takeWhile Char.isDigit with
    | [] => none
    | ds =>
      if ds.length > 1 && (ds.head? == some '0') then none
      else
        match parseFrac (l1.drop ds.length) with
        | none => none
        | some (fr, l3) =>
          match parseExp l3 with
          | none => none
          | some (ex, l4) => some (String.mk (sgn ++ ds ++ fr ++ ex), l4)

/-- Insert a parsed object field; a later duplicate key wins, matching the
map semantics of `serde_json`. The remaining fields `fs` are the ones that
appear after `k` in the source text. -/
def objUpsert (k : String) (v : Json) (fs : List (String × Json)) : List (String × Json) :=
  match fs.lookup k with
  | some _ => fs
  | none => (k, v) :: fs

/-- Fuel-indexed JSON value parser. Arrays and objects are parsed by
re-entering the parser on a reconstructed opener, so a single structural
recursion on the fuel suffices; `input.length + 1` fuel always completes. -/
def parseVal : Nat → List Char → Option (Json × List Char)
  | 0, _ => none
  | fuel + 1, input =>
    match skipWs input with
    | [] => none
    | '"' :: rest =>
      match parseStrChars rest with
      | some (cs, r) => some (.str (String.mk cs), r)
      | none => none
    | 't' :: 'r' :: 'u' :: 'e' :: r => some (.bool true, r)
    | 'f' :: 'a' :: 'l' :: 's' :: 'e' :: r => some (.bool false, r)
    | 'n' :: 'u' :: 'l' :: 'l' :: r => some (.null, r)
    | '[' :: rest =>
      match skipWs rest with
      | ']' :: r => some (.arr [], r)
      | _ =>
        match parseVal fuel rest with
        | some (v, r) =>
          match skipWs r with
          | ']' :: r2 => some (.arr [v], r2)
          | ',' :: r2 =>
            match skipWs r2 with
            | ']' :: _ => none
            | _ =>
              match parseVal fuel ('[' :: r2) with
              | some (.arr vs, r3) => some (.arr (v :: vs), r3)
              | _ => none
          | _ => none
        | none => none
    | '{' :: rest =>
      match skipWs rest with
      | '}' :: r => some (.obj [], r)
      | '"' :: rest2 =>
        match parseStrChars rest2 with
        | some (kcs, r1) =>
          match skipWs r1 with
          | ':' :: r2 =>
            match parseVal fuel r2 with
            | some (v, r3) =>
              match skipWs r3 with
              | '}' :: r4 => some (.obj (objUpsert (String.mk kcs) v []), r4)
              | ',' :: r4 =>
                match skipWs r4 with
                | '"' :: _ =>
                  match parseVal fuel ('{' :: r4) with
                  | some (.obj fs, r5) =>
                    some (.obj (objUpsert (String.mk kcs) v fs), r5)
                  | _ => none
                | _ => none
              | _ => none
            | none => none
          | _ => none
        | none => none
      | _ => none
    | c :: rest =>
      if c == '-' || c.isDigit then
        match parseNumber (c :: rest) with
        | some (lx, r) => some (.num lx, r)
        | none => none
      else none

/-- Model of `serde_json::from_str::<Value>(s).ok()`: the whole input must
be consumed (up to trailing whitespace), and any parse failure is `none`. -/
def parseJson (s : String) : Option Json :=
  match parseVal (s.data.length + 1) s.data with
  | some (v, rest) => if (skipWs rest).isEmpty then some v else none
  | none => none

/-- Model of `parse_vcap_services`: decode the catalog document, then run
the structural lookup; every failure degrades to `none`. The binding-name
override (`TANZU_AI_BINDING_NAME`) is passed explicitly. -/
def parse_vcap_services (bindingName : Option String) (vcapJson : String) :
    Option TanzuCredentials :=
  match parseJson vcapJson with
  | some vcap => parse_vcap_json bindingName vcap
  | none => none

/-- Process configuration state visible to `resolve_credentials`: the four
provider parameters read through `Config::global()`, plus the two
environment variables read directly. A `none` field models an absent key. -/
structure TanzuConfig where
  endpoint : Option String
  api_key : Option String
  config_url : Option String
  model_name : Option String
  vcap_services : Option String
  binding_name : Option String
deriving DecidableEq

/-- The configuration error message raised when no path yields credentials. -/
def tanzuCredsErrMsg : String :=
  "Tanzu AI Services credentials not found. Set TANZU_AI_ENDPOINT and TANZU_AI_API_KEY, or run on Cloud Foundry with a bound genai service instance."

/-- Model of `resolve_credentials`: explicit configuration first, then
VCAP_SERVICES auto-detection, then a descriptive configuration error. -/
def resolve_credentials (cfg : TanzuConfig) : Except String TanzuCredentials :=
  match cfg.endpoint, cfg.api_key with
  | some endpoint, some key =>
    .ok { endpoint_base := endpoint
          api_key := key
          config_url := cfg.config_url
          model_name := cfg.model_name }
  | _, _ =>
    match cfg.vcap_services with
    | some vcap =>
      match parse_vcap_services cfg.binding_name vcap with
      | some creds => .ok creds
      | none => .error tanzuCredsErrMsg
    | none => .error tanzuCredsErrMsg

/-- Case-insensitive ASCII lowering of one character (Rust
`u8::to_ascii_lowercase` restricted to the A-Z range). -/
def asciiLower (c : Char) : Char :=
  if 'A' ≤ c ∧ c ≤ 'Z' then Char.ofNat (c.toNat + 32) else c

/-- Model of Rust `str::eq_ignore_ascii_case`. -/
def eqIgnoreAsciiCase (a b : String) : Bool :=
  a.data.map asciiLower == b.data.map asciiLower

/-- Model of `filter_chat_models`: keep the names of models with at least
one capability that case-insensitively equals chat, tools or completion. -/
def filter_chat_models (models : List AdvertisedModel) : List String :=
  (models.filter (fun m =>
    m.capabilities.any (fun c =>
      eqIgnoreAsciiCase c "chat" || eqIgnoreAsciiCase c "tools" ||
        eqIgnoreAsciiCase c "completion"))).map (fun m => m.name)

/-- A binding element's `name` field decodes to the given string. -/
def bindingNameMatches (name : String) (b : Json) : Prop :=
  (b.get "name").bind Json.asStr = some name

instance (name : String) (b : Json) : Decidable (bindingNameMatches name b) := by
  unfold bindingNameMatches; infer_instance

set_option maxRecDepth 20000

/-! ## Helper lemmas about the trimming primitives -/

/-- Trimming a suffix that is not present is a no-op. -/
theorem trimEndAll_of_not_suffix {pat l : List Char} (h : pat.isSuffixOf l = false)
    (n : Nat) : trimEndAll pat n l = l := by
  cases n <;> simp [trimEndAll, h]

/-- A nonempty pattern is never a suffix of the result of `trimEndAll`,
provided the fuel covers the input length. -/
theorem trimEndAll_no_suffix {pat : List Char} (hp : pat ≠ []) :
    ∀ (n : Nat) (l : List Char), l.length ≤ n →
      pat.isSuffixOf (trimEndAll pat n l) = false := by
  intro n
  induction n with
  | zero =>
    intro l hl
    have hnil : l = [] := List.length_eq_zero.mp (Nat.le_zero.mp hl)
    subst hnil
    show pat.isSuffixOf [] = false
    rw [Bool.eq_false_iff]
    intro hc
    exact hp (List.suffix_nil.mp (List.isSuffixOf_iff_suffix.mp hc))
  | succ n ih =>
    intro l hl
    unfold trimEndAll
    by_cases hs : pat.isSuffixOf l = true
    · simp only [hs, if_true]
      apply ih
      have hpl : 1 ≤ pat.length := List.length_pos.mpr hp
      simp only [List.length_take]
      omega
    · rw [if_neg (by simp [hs])]
      exact Bool.eq_false_iff.mpr hs

/-- The pattern is a suffix of anything it is appended to. -/
theorem isSuffixOf_append_self (t pat : List Char) : pat.isSuffixOf (t ++ pat) = true := by
  simp [List.isSuffixOf_iff_suffix]

/-- One step of `trimEndAll` removes one appended copy of the pattern. -/
theorem trimEndAll_append (pat t : List Char) (n : Nat) :
    trimEndAll pat (n + 1) (t ++ pat) = trimEndAll pat n t := by
  show (if pat.isSuffixOf (t ++ pat) = true then
          trimEndAll pat n ((t ++ pat).take ((t ++ pat).length - pat.length))
        else (t ++ pat)) = trimEndAll pat n t
  rw [if_pos (isSuffixOf_append_self t pat), List.length_append, Nat.add_sub_cancel,
    List.take_left]

/-- Removing trailing slashes from a list that does not end in a slash is a
no-op. -/
theorem dropTrailingSlashes_eq_self {l : List Char}
    (h : (['/'] : List Char).isSuffixOf l = false) : dropTrailingSlashes l = l := by
  unfold dropTrailingSlashes
  rcases hr : l.reverse with _ | ⟨x, r⟩
  · have : l = [] := by simpa using congrArg List.reverse hr
    simp [this]
  · have hx : ¬ ((x == '/') = true) := by
      intro hxe
      have hx' : x = '/' := by simpa using hxe
      subst hx'
      have hsuf : (['/'] : List Char).isSuffixOf l = true := by
        rw [List.isSuffixOf_iff_suffix]
        refine ⟨r.reverse, ?_⟩
        have hl : l = ('/' :: r).reverse := by rw [← hr, List.reverse_reverse]
        simp [hl]
      rw [hsuf] at h
      exact Bool.noConfusion h
    have hx' : (x == '/') = false := by simpa using hx
    rw [List.dropWhile_cons]
    simp only [hx', Bool.false_eq_true, if_false]
    rw [← hr, List.reverse_reverse]

/-- A slash is never a suffix once `"/openai"` has been appended. -/
theorem slash_not_suffix_append_openai (l : List Char) :
    (['/'] : List Char).isSuffixOf (l ++ openaiSuffix) = false := by
  rw [Bool.eq_false_iff]
  intro hc
  obtain ⟨t, ht⟩ := List.isSuffixOf_iff_suffix.mp hc
  have hsplit : openaiSuffix = ['/', 'o', 'p', 'e', 'n', 'a'] ++ ['i'] := rfl
  have hlast : (t ++ ['/']).getLast? = (l ++ openaiSuffix).getLast? := congrArg _ ht
  rw [hsplit, ← List.append_assoc] at hlast
  simp only [List.getLast?_concat] at hlast
  exact (by decide : ('/' : Char) ≠ 'i') (Option.some.inj hlast)

/-- The stripped base never ends in the `"/openai"` suffix: the code removes
every trailing occurrence. -/
theorem strip_no_openai_suffix (s : String) :
    strEndsWith (strip_openai_suffix s) "/openai" = false := by
  show openaiSuffix.isSuffixOf _ = false
  exact trimEndAll_no_suffix (by decide) _ _ (Nat.le_refl _)

/-- A string ending in neither a slash nor `"/openai"` is a fixed point of
`strip_openai_suffix`. -/
theorem strip_eq_self_of_no_suffix (y : String) (h1 : strEndsWith y "/" = false)
    (h2 : strEndsWith y "/openai" = false) : strip_openai_suffix y = y := by
  obtain ⟨d⟩ := y
  show String.mk (trimEndAll openaiSuffix (dropTrailingSlashes d).length
    (dropTrailingSlashes d)) = String.mk d
  have h1' : (['/'] : List Char).isSuffixOf d = false := h1
  have h2' : openaiSuffix.isSuffixOf d = false := h2
  rw [dropTrailingSlashes_eq_self h1', trimEndAll_of_not_suffix h2']

/-- Evaluation of `parse_binding_credentials` when the `endpoint` key is
present (Variant A). -/
theorem parse_binding_credentials_endpoint_some {creds ep : Json}
    (h : creds.get "endpoint" = some ep) :
    parse_binding_credentials creds =
      match (ep.get "api_base").bind Json.asStr, (ep.get "api_key").bind Json.asStr with
      | some endpoint_base, some key =>
        some { endpoint_base := endpoint_base
               api_key := key
               config_url := ep.getStr "config_url"
               model_name := creds.getStr "model_name" }
      | _, _ => none := by
  unfold parse_binding_credentials
  rw [h]

/-- Evaluation of `parse_binding_credentials` when the `endpoint` key is
absent (Variant B). -/
theorem parse_binding_credentials_endpoint_none {creds : Json}
    (h : creds.get "endpoint" = none) :
    parse_binding_credentials creds =
      match (creds.get "api_base").bind Json.asStr, (creds.get "api_key").bind Json.asStr with
      | some api_base, some key =>
        some { endpoint_base := strip_openai_suffix api_base
               api_key := key
               config_url := none
               model_name := creds.getStr "model_name" }
      | _, _ => none := by
  unfold parse_binding_credentials
  rw [h]

/-! ## Claim C2 -/

/-- C2 (counterexample): the claimed invariant — `endpoint_base` never ends in
`/` and never ends in `/openai` for every produced record — is false: the
Variant A path copies `endpoint.api_base` verbatim (here ending in `/`), and
the explicit-configuration path copies `TANZU_AI_ENDPOINT` verbatim (here
ending in `/openai`). -/
theorem tanzu_c2_counterexample :
    parse_binding_credentials (Json.obj [("endpoint", Json.obj
        [("api_base", Json.str "https://h/"), ("api_key", Json.str "k")])]) =
      some ⟨"https://h/", "k", none, none⟩
    ∧ strEndsWith "https://h/" "/" = true
    ∧ resolve_credentials ⟨some "https://h/openai", some "k", none, none, none, none⟩ =
      Except.ok ⟨"https://h/openai", "k", none, none⟩
    ∧ strEndsWith "https://h/openai" "/openai" = true :=
  ⟨rfl, rfl, rfl, rfl⟩

/-- C2 (amended): only the Variant B (legacy flat schema) path normalizes:
its `endpoint_base` never ends in `/openai`; the Variant A path and the
explicit-configuration path carry the supplied endpoint base verbatim, so
those records end in `/` or `/openai` exactly when the input does (and a
Variant B result can still end in `/`, as in `a//openai` ↦ `a/`). -/
theorem tanzu_c2_amended_endpoint_invariant :
    (∀ (creds : Json) (c : TanzuCredentials), creds.get "endpoint" = none →
        parse_binding_credentials creds = some c →
        strEndsWith c.endpoint_base "/openai" = false)
    ∧ (∀ (creds ep : Json) (c : TanzuCredentials), creds.get "endpoint" = some ep →
        parse_binding_credentials creds = some c →
        (ep.get "api_base").bind Json.asStr = some c.endpoint_base)
    ∧ (∀ (cfg : TanzuConfig) (e k : String), cfg.endpoint = some e → cfg.api_key = some k →
        resolve_credentials cfg = Except.ok ⟨e, k, cfg.config_url, cfg.model_name⟩) := by
  refine ⟨?_, ?_, ?_⟩
  · intro creds c h hp
    rw [parse_binding_credentials_endpoint_none h] at hp
    split at hp
    · cases hp
      exact strip_no_openai_suffix _
    · exact Option.noConfusion hp
  · intro creds ep c h hp
    rw [parse_binding_credentials_endpoint_some h] at hp
    split at hp
    · rename_i ab k2 hab hak
      cases hp
      exact hab
    · exact Option.noConfusion hp
  · intro cfg e k he hk
    unfold resolve_credentials
    rw [he, hk]

/-- C2 (witness): the amended theorem applied at concrete inputs covering
all three paths. -/
theorem tanzu_c2_witness :
    strEndsWith "a/" "/openai" = false
    ∧ ((Json.obj [("api_base", Json.str "https://h/openai"), ("api_key", Json.str "k")]).get
        "api_base").bind Json.asStr = some "https://h/openai"
    ∧ resolve_credentials ⟨some "https://e/", some "k", none, some "m", some "zzz", none⟩ =
      Except.ok ⟨"https://e/", "k", none, some "m"⟩ :=
  ⟨tanzu_c2_amended_endpoint_invariant.1
      (Json.obj [("api_base", Json.str "a//openai"), ("api_key", Json.str "k")])
      ⟨"a/", "k", none, none⟩ rfl rfl,
    tanzu_c2_amended_endpoint_invariant.2.1
      (Json.obj [("endpoint", Json.obj
        [("api_base", Json.str "https://h/openai"), ("api_key", Json.str "k")])])
      (Json.obj [("api_base", Json.str "https://h/openai"), ("api_key", Json.str "k")])
      ⟨"https://h/openai", "k", none, none⟩ rfl rfl,
    tanzu_c2_amended_endpoint_invariant.2.2
      ⟨some "https://e/", some "k", none, some "m", some "zzz", none⟩ "https://e/" "k" rfl rfl⟩

/-! ## Claim C3 -/

/-- C3: for every binding JSON with an `endpoint` sub-object carrying string
`api_base` and `api_key`, the detector returns credentials whose
`endpoint_base` is `endpoint.api_base` verbatim, `config_url` comes from
`endpoint.config_url` (string-valued, else absent) and `model_name` from the
top-level sibling (string-valued, else absent), regardless of any other
top-level fields. -/
theorem tanzu_c3_variant_a_endpoint :
    ∀ (creds ep : Json) (ab ak : String),
      creds.get "endpoint" = some ep →
      ep.get "api_base" = some (Json.str ab) →
      ep.get "api_key" = some (Json.str ak) →
      parse_binding_credentials creds =
        some ⟨ab, ak, ep.getStr "config_url", creds.getStr "model_name"⟩ := by
  intro creds ep ab ak h hb hk
  rw [parse_binding_credentials_endpoint_some h, hb, hk]
  rfl

/-- C3 (witness): the spec's concrete scenario. -/
theorem tanzu_c3_witness :
    parse_binding_credentials (Json.obj [("endpoint", Json.obj
        [("api_base", Json.str "https://h/plan"), ("api_key", Json.str "k2"),
         ("config_url", Json.str "https://h/plan/cfg")])]) =
      some ⟨"https://h/plan", "k2", some "https://h/plan/cfg", none⟩ :=
  tanzu_c3_variant_a_endpoint
    (Json.obj [("endpoint", Json.obj
      [("api_base", Json.str "https://h/plan"), ("api_key", Json.str "k2"),
       ("config_url", Json.str "https://h/plan/cfg")])])
    (Json.obj [("api_base", Json.str "https://h/plan"), ("api_key", Json.str "k2"),
      ("config_url", Json.str "https://h/plan/cfg")])
    "https://h/plan" "k2" rfl rfl rfl

/-! ## Claim C4 -/

/-- C4 (counterexample): the claim quantifies over values lacking an
`endpoint` *object*; but when an `endpoint` key is present with a non-object
value, the code still takes the Variant A branch and returns `none`, even
though valid string top-level `api_base`/`api_key` exist. -/
theorem tanzu_c4_counterexample :
    (Json.obj [("endpoint", Json.str "x"), ("api_base", Json.str "https://h/guid/openai"),
        ("api_key", Json.str "k")]).get "endpoint" = some (Json.str "x")
    ∧ (Json.obj [("endpoint", Json.str "x"), ("api_base", Json.str "https://h/guid/openai"),
        ("api_key", Json.str "k")]).get "api_base" = some (Json.str "https://h/guid/openai")
    ∧ (Json.obj [("endpoint", Json.str "x"), ("api_base", Json.str "https://h/guid/openai"),
        ("api_key", Json.str "k")]).get "api_key" = some (Json.str "k")
    ∧ parse_binding_credentials (Json.obj [("endpoint", Json.str "x"),
        ("api_base", Json.str "https://h/guid/openai"), ("api_key", Json.str "k")]) = none :=
  ⟨rfl, rfl, rfl, rfl⟩

/-- C4 (amended): for every binding JSON lacking an `endpoint` *key* with
string top-level `api_base` and `api_key`, the result has `endpoint_base`
equal to `api_base` normalized by `strip_openai_suffix` (trailing slashes
trimmed first, then trailing `/openai` suffixes stripped), absent
`config_url`, and `model_name` from the top-level field when present as a
string. -/
theorem tanzu_c4_amended_legacy :
    ∀ (creds : Json) (ab ak : String),
      creds.get "endpoint" = none →
      creds.get "api_base" = some (Json.str ab) →
      creds.get "api_key" = some (Json.str ak) →
      parse_binding_credentials creds =
        some ⟨strip_openai_suffix ab, ak, none, creds.getStr "model_name"⟩ := by
  intro creds ab ak h hb hk
  rw [parse_binding_credentials_endpoint_none h, hb, hk]
  rfl

/-- C4 (witness): the claim's concrete scenario, which does satisfy the
amended hypothesis. -/
theorem tanzu_c4_witness :
    parse_binding_credentials (Json.obj [("api_base", Json.str "https://h/guid/openai"),
        ("api_key", Json.str "k"), ("model_name", Json.str "m")]) =
      some ⟨"https://h/guid", "k", none, some "m"⟩ :=
  tanzu_c4_amended_legacy
    (Json.obj [("api_base", Json.str "https://h/guid/openai"),
      ("api_key", Json.str "k"), ("model_name", Json.str "m")])
    "https://h/guid/openai" "k" rfl rfl rfl

/-! ## Claim C5 -/

/-- C5 (counterexample): the round trip is not the identity on strings
ending in `/openai/`: the trailing slash is lost. -/
theorem tanzu_c5_counterexample :
    strEndsWith "https://h/plan/openai/" "/openai/" = true
    ∧ derive_host (strip_openai_suffix "https://h/plan/openai/") = "https://h/plan/openai"
    ∧ derive_host (strip_openai_suffix "https://h/plan/openai/") ≠ "https://h/plan/openai/" :=
  ⟨rfl, rfl, by decide⟩

/-- C5 (amended): host derivation inverts suffix-stripping exactly on
strings of the form `a ++ "/openai"` where `a` itself ends in neither `/`
nor `/openai`; inputs ending in `/openai/` (or with doubled separators or
repeated suffixes) are not recovered verbatim. -/
theorem tanzu_c5_amended_roundtrip :
    ∀ a : String, strEndsWith a "/" = false → strEndsWith a "/openai" = false →
      derive_host (strip_openai_suffix (a ++ "/openai")) = a ++ "/openai" := by
  intro a h1 h2
  obtain ⟨d⟩ := a
  have h1' : (['/'] : List Char).isSuffixOf d = false := h1
  have h2' : openaiSuffix.isSuffixOf d = false := h2
  have hdata : (String.mk d ++ "/openai").data = d ++ openaiSuffix := by
    rw [String.data_append]
    rfl
  have hstrip : strip_openai_suffix (String.mk d ++ "/openai") = String.mk d := by
    show String.mk (trimEndAll openaiSuffix
        (dropTrailingSlashes (String.mk d ++ "/openai").data).length
        (dropTrailingSlashes (String.mk d ++ "/openai").data)) = String.mk d
    rw [hdata, dropTrailingSlashes_eq_self (slash_not_suffix_append_openai d)]
    have hlen : (d ++ openaiSuffix).length = d.length + 6 + 1 := by
      simp [openaiSuffix]
    rw [hlen, trimEndAll_append, trimEndAll_of_not_suffix h2']
  rw [hstrip]
  show String.mk (dropTrailingSlashes d) ++ "/openai" = String.mk d ++ "/openai"
  rw [dropTrailingSlashes_eq_self h1']

/-- C5 (witness): the amended round trip at a concrete base. -/
theorem tanzu_c5_witness :
    strEndsWith "https://h/plan" "/" = false
    ∧ strEndsWith "https://h/plan" "/openai" = false
    ∧ derive_host (strip_openai_suffix ("https://h/plan" ++ "/openai")) =
        "https://h/plan" ++ "/openai" :=
  ⟨rfl, rfl, tanzu_c5_amended_roundtrip "https://h/plan" rfl rfl⟩

/-! ## Claim C6 -/

/-- C6 (counterexample): `strip_openai_suffix` is not idempotent on every
string: stripping `a//openai` leaves `a/`, and a second application strips
further to `a`. -/
theorem tanzu_c6_counterexample :
    strip_openai_suffix "a//openai" = "a/"
    ∧ strip_openai_suffix (strip_openai_suffix "a//openai") = "a"
    ∧ strip_openai_suffix (strip_openai_suffix "a//openai") ≠ strip_openai_suffix "a//openai" :=
  ⟨rfl, rfl, by decide⟩

/-- C6 (amended): `strip_openai_suffix` is idempotent on every input whose
stripped form does not end in `/` (a second application is a no-op unless
the first strip exposed a trailing slash). -/
theorem tanzu_c6_amended_idempotent :
    ∀ x : String, strEndsWith (strip_openai_suffix x) "/" = false →
      strip_openai_suffix (strip_openai_suffix x) = strip_openai_suffix x := by
  intro x h
  exact strip_eq_self_of_no_suffix _ h (strip_no_openai_suffix x)

/-- C6 (witness): idempotence at a concrete input. -/
theorem tanzu_c6_witness :
    strEndsWith (strip_openai_suffix "https://h/x/openai") "/" = false
    ∧ strip_openai_suffix (strip_openai_suffix "https://h/x/openai") =
        strip_openai_suffix "https://h/x/openai" :=
  ⟨rfl, tanzu_c6_amended_idempotent "https://h/x/openai" rfl⟩

/-! ## Claim C10 -/

/-- C10: when the `endpoint` key is present but its `api_base` or `api_key`
sub-field is missing or not a string, `parse_binding_credentials` returns
`none` and never falls back to the legacy flat schema. -/
theorem tanzu_c10_endpoint_no_fallback :
    ∀ (creds ep : Json), creds.get "endpoint" = some ep →
      ((ep.get "api_base").bind Json.asStr = none ∨
        (ep.get "api_key").bind Json.asStr = none) →
      parse_binding_credentials creds = none := by
  intro creds ep h hd
  rw [parse_binding_credentials_endpoint_some h]
  rcases hd with ha | hk
  · rw [ha]
  · rcases hab : (ep.get "api_base").bind Json.asStr with _ | ab
    · rfl
    · rw [hk]

/-- C10 (witness): an incomplete endpoint block with valid top-level fields
still yields `none`. -/
theorem tanzu_c10_witness :
    parse_binding_credentials (Json.obj
      [("endpoint", Json.obj [("api_base", Json.str "https://h")]),
       ("api_base", Json.str "https://h/openai"), ("api_key", Json.str "k")]) = none :=
  tanzu_c10_endpoint_no_fallback
    (Json.obj [("endpoint", Json.obj [("api_base", Json.str "https://h")]),
      ("api_base", Json.str "https://h/openai"), ("api_key", Json.str "k")])
    (Json.obj [("api_base", Json.str "https://h")])
    rfl (Or.inr rfl)

/-! ## Claim C1 -/

/-- Evaluation of `parse_vcap_json` once the catalog array is known. -/
theorem parse_vcap_json_arr {bn : Option String} {vcap : Json} {bs : List Json}
    (h : (vcap.get "genai").bind Json.asArray = some bs) :
    parse_vcap_json bn vcap =
      (match select_binding bn bs with
       | some binding => (binding.get "credentials").bind parse_binding_credentials
       | none => none) := by
  unfold parse_vcap_json
  rw [h]

/-- Fallback behavior of the resolver when explicit configuration is
incomplete: the result is exactly what the catalog path produces. -/
theorem resolve_credentials_fallback (cfg : TanzuConfig)
    (h : cfg.endpoint = none ∨ cfg.api_key = none) :
    resolve_credentials cfg =
      (match cfg.vcap_services with
       | some vcap =>
         (match parse_vcap_services cfg.binding_name vcap with
          | some creds => Except.ok creds
          | none => Except.error tanzuCredsErrMsg)
       | none => Except.error tanzuCredsErrMsg) := by
  unfold resolve_credentials
  rcases h with he | hk
  · rw [he]
  · rcases he2 : cfg.endpoint with _ | e
    · rfl
    · rw [hk]

/-- C1: `resolve_credentials` precedence: with both explicit fields present
the credentials come verbatim from configuration (optional fields from the
optional parameters) without consulting the catalog; with at most one
explicit field present, resolution falls through to VCAP_SERVICES catalog
detection; and when that also yields nothing the result is the
configuration error whose text names both remediation options. -/
theorem tanzu_c1_resolve_precedence :
    ∀ cfg : TanzuConfig,
      (∀ e k, cfg.endpoint = some e → cfg.api_key = some k →
        resolve_credentials cfg = Except.ok ⟨e, k, cfg.config_url, cfg.model_name⟩)
      ∧ ((cfg.endpoint = none ∨ cfg.api_key = none) →
        resolve_credentials cfg =
          (match cfg.vcap_services with
           | some vcap =>
             (match parse_vcap_services cfg.binding_name vcap with
              | some creds => Except.ok creds
              | none => Except.error tanzuCredsErrMsg)
           | none => Except.error tanzuCredsErrMsg))
      ∧ ((cfg.endpoint = none ∨ cfg.api_key = none) →
        (∀ v, cfg.vcap_services = some v → parse_vcap_services cfg.binding_name v = none) →
        resolve_credentials cfg = Except.error tanzuCredsErrMsg)
      ∧ containsSub "TANZU_AI_ENDPOINT".data tanzuCredsErrMsg.data = true
      ∧ containsSub "TANZU_AI_API_KEY".data tanzuCredsErrMsg.data = true
      ∧ containsSub "bound genai service".data tanzuCredsErrMsg.data = true := by
  intro cfg
  refine ⟨?_, resolve_credentials_fallback cfg, ?_, by decide, by decide, by decide⟩
  · intro e k he hk
    unfold resolve_credentials
    rw [he, hk]
  · intro h hnone
    rw [resolve_credentials_fallback cfg h]
    rcases hv : cfg.vcap_services with _ | v
    · rfl
    · show (match parse_vcap_services cfg.binding_name v with
            | some creds => Except.ok creds
            | none => Except.error tanzuCredsErrMsg) = Except.error tanzuCredsErrMsg
      rw [hnone v hv]

/-- C1 (witness): the three precedence outcomes at concrete configurations. -/
theorem tanzu_c1_witness :
    resolve_credentials ⟨some "https://e", some "k", some "https://e/cfg", some "m",
        some "ignored", none⟩ =
      Except.ok ⟨"https://e", "k", some "https://e/cfg", some "m"⟩
    ∧ resolve_credentials ⟨none, some "k", none, none, none, none⟩ =
      Except.error tanzuCredsErrMsg
    ∧ resolve_credentials ⟨none, none, none, none, some "not json", none⟩ =
      Except.error tanzuCredsErrMsg := by
  refine ⟨(tanzu_c1_resolve_precedence _).1 "https://e" "k" rfl rfl, ?_, ?_⟩
  · have h := (tanzu_c1_resolve_precedence
      ⟨none, some "k", none, none, none, none⟩).2.1 (Or.inl rfl)
    exact h.trans rfl
  · exact (tanzu_c1_resolve_precedence _).2.2.1 (Or.inl rfl)
      (fun v hv => by
        have h3 : ("not json" : String) = v := Option.some.inj hv
        rw [← h3]
        rfl)

/-! ## Claim C7 -/

/-- C7: catalog parsing never surfaces an error: malformed JSON, a missing
`genai` key, a non-array `genai` value, an empty array, and a selected
binding without a `credentials` object all yield `none`; and the caller
then reports the generic configuration error, not a parse failure. -/
theorem tanzu_c7_catalog_never_errors :
    (∀ (bn : Option String) (s : String), parseJson s = none →
        parse_vcap_services bn s = none)
    ∧ (∀ (bn : Option String) (vcap : Json), vcap.get "genai" = none →
        parse_vcap_json bn vcap = none)
    ∧ (∀ (bn : Option String) (vcap g : Json), vcap.get "genai" = some g →
        g.asArray = none → parse_vcap_json bn vcap = none)
    ∧ (∀ (bn : Option String) (vcap : Json),
        (vcap.get "genai").bind Json.asArray = some [] → parse_vcap_json bn vcap = none)
    ∧ (∀ (bn : Option String) (vcap : Json) (bs : List Json) (b : Json),
        (vcap.get "genai").bind Json.asArray = some bs →
        select_binding bn bs = some b → b.get "credentials" = none →
        parse_vcap_json bn vcap = none)
    ∧ (∀ (cfg : TanzuConfig) (s : String),
        (cfg.endpoint = none ∨ cfg.api_key = none) → cfg.vcap_services = some s →
        parse_vcap_services cfg.binding_name s = none →
        resolve_credentials cfg = Except.error tanzuCredsErrMsg) := by
  refine ⟨?_, ?_, ?_, ?_, ?_, ?_⟩
  · intro bn s h
    unfold parse_vcap_services
    rw [h]
  · intro bn vcap h
    unfold parse_vcap_json
    rw [h]
    rfl
  · intro bn vcap g h hg
    have hbind : (vcap.get "genai").bind Json.asArray = none := by
      rw [h]
      exact hg
    unfold parse_vcap_json
    rw [hbind]
  · intro bn vcap h
    rw [parse_vcap_json_arr h]
    rcases bn with _ | name
    · rfl
    · rfl
  · intro bn vcap bs b h hsel hc
    rw [parse_vcap_json_arr h, hsel]
    show (b.get "credentials").bind parse_binding_credentials = none
    rw [hc]
    rfl
  · intro cfg s h hv hp
    rw [resolve_credentials_fallback cfg h, hv]
    show (match parse_vcap_services cfg.binding_name s with
          | some creds => Except.ok creds
          | none => Except.error tanzuCredsErrMsg) = Except.error tanzuCredsErrMsg
    rw [hp]

/-- C7 (witness): each silent-failure shape at a concrete input. -/
theorem tanzu_c7_witness :
    parse_vcap_services none "not json" = none
    ∧ parse_vcap_json none (Json.obj [("other", Json.arr [])]) = none
    ∧ parse_vcap_json none (Json.obj [("genai", Json.str "zz")]) = none
    ∧ parse_vcap_json none (Json.obj [("genai", Json.arr [])]) = none
    ∧ parse_vcap_json (some "x")
        (Json.obj [("genai", Json.arr [Json.obj [("name", Json.str "x")]])]) = none
    ∧ resolve_credentials ⟨none, none, none, none, some "not json", none⟩ =
      Except.error tanzuCredsErrMsg :=
  ⟨tanzu_c7_catalog_never_errors.1 none "not json" rfl,
    tanzu_c7_catalog_never_errors.2.1 none (Json.obj [("other", Json.arr [])]) rfl,
    tanzu_c7_catalog_never_errors.2.2.1 none (Json.obj [("genai", Json.str "zz")])
      (Json.str "zz") rfl rfl,
    tanzu_c7_catalog_never_errors.2.2.2.1 none (Json.obj [("genai", Json.arr [])]) rfl,
    tanzu_c7_catalog_never_errors.2.2.2.2.1 (some "x")
      (Json.obj [("genai", Json.arr [Json.obj [("name", Json.str "x")]])])
      [Json.obj [("name", Json.str "x")]] (Json.obj [("name", Json.str "x")]) rfl rfl rfl,
    tanzu_c7_catalog_never_errors.2.2.2.2.2 ⟨none, none, none, none, some "not json", none⟩
      "not json" (Or.inl rfl) rfl rfl⟩

/-! ## Claim C8 -/

/-- `find?` returns the head of the first matching position when everything
before it fails the predicate. -/
theorem find?_append_first {α : Type} (p : α → Bool) (pre : List α) (b : α) (post : List α)
    (hpre : ∀ x ∈ pre, p x = false) (hb : p b = true) :
    (pre ++ b :: post).find? p = some b := by
  induction pre with
  | nil => simpa using List.find?_cons_of_pos post hb
  | cons a t ih =>
    have ha : p a = false := hpre a (List.mem_cons_self a t)
    rw [List.cons_append, List.find?_cons_of_neg _ (by simp [ha])]
    exact ih (fun x hx => hpre x (List.mem_cons_of_mem a hx))

/-- The Boolean predicate used by `select_binding` decides
`bindingNameMatches`. -/
theorem select_pred_iff (name : String) (b : Json) :
    ((match (b.get "name").bind Json.asStr with
      | some n => n == name
      | none => false) = true) ↔ bindingNameMatches name b := by
  unfold bindingNameMatches
  rcases h : (b.get "name").bind Json.asStr with _ | n <;> simp [h]

/-- C8: binding selection: with an override, `parse_vcap_services` uses the
first array element whose `name` equals the override (none matching gives no
result); without an override it uses the first element. -/
theorem tanzu_c8_binding_selection :
    ∀ (vcap : Json) (bs : List Json),
      (vcap.get "genai").bind Json.asArray = some bs →
      ((∀ name : String, (∀ b ∈ bs, ¬ bindingNameMatches name b) →
          parse_vcap_json (some name) vcap = none)
       ∧ (∀ (name : String) (pre : List Json) (b : Json) (post : List Json),
          bs = pre ++ b :: post → bindingNameMatches name b →
          (∀ x ∈ pre, ¬ bindingNameMatches name x) →
          parse_vcap_json (some name) vcap =
            (b.get "credentials").bind parse_binding_credentials)
       ∧ (∀ (b : Json) (tl : List Json), bs = b :: tl →
          parse_vcap_json none vcap =
            (b.get "credentials").bind parse_binding_credentials)) := by
  intro vcap bs h
  refine ⟨?_, ?_, ?_⟩
  · intro name hall
    rw [parse_vcap_json_arr h]
    have hsel : select_binding (some name) bs = none := by
      unfold select_binding
      rw [List.find?_eq_none]
      intro x hx hpx
      exact hall x hx ((select_pred_iff name x).mp hpx)
    rw [hsel]
  · intro name pre b post hbs hb hpre
    rw [parse_vcap_json_arr h]
    have hsel : select_binding (some name) bs = some b := by
      unfold select_binding
      rw [hbs]
      apply find?_append_first
      · intro x hx
        rw [Bool.eq_false_iff]
        intro hpx
        exact hpre x hx ((select_pred_iff name x).mp hpx)
      · exact (select_pred_iff name b).mpr hb
    rw [hsel]
  · intro b tl hbs
    rw [parse_vcap_json_arr h, hbs]
    rfl

/-- C8 (witness): the override selects the named second element past a
non-matching first element; without an override the first element is used. -/
theorem tanzu_c8_witness :
    parse_vcap_json (some "target") (Json.obj [("genai", Json.arr
        [Json.obj [("name", Json.str "other"), ("credentials",
            Json.obj [("api_base", Json.str "https://h/b1/openai"),
                      ("api_key", Json.str "k1")])],
         Json.obj [("name", Json.str "target"), ("credentials",
            Json.obj [("endpoint", Json.obj [("api_base", Json.str "https://h/b2"),
                      ("api_key", Json.str "k2")])])]])]) =
      some ⟨"https://h/b2", "k2", none, none⟩
    ∧ parse_vcap_json none (Json.obj [("genai", Json.arr
        [Json.obj [("name", Json.str "other"), ("credentials",
            Json.obj [("api_base", Json.str "https://h/b1/openai"),
                      ("api_key", Json.str "k1")])],
         Json.obj [("name", Json.str "target"), ("credentials",
            Json.obj [("endpoint", Json.obj [("api_base", Json.str "https://h/b2"),
                      ("api_key", Json.str "k2")])])]])]) =
      some ⟨"https://h/b1", "k1", none, none⟩
    ∧ parse_vcap_json (some "missing") (Json.obj [("genai", Json.arr
        [Json.obj [("name", Json.str "other"), ("credentials",
            Json.obj [("api_base", Json.str "https://h/b1/openai"),
                      ("api_key", Json.str "k1")])]])]) = none := by
  refine ⟨?_, ?_, ?_⟩
  · have hsel := (tanzu_c8_binding_selection (Json.obj [("genai", Json.arr
        [Json.obj [("name", Json.str "other"), ("credentials",
            Json.obj [("api_base", Json.str "https://h/b1/openai"),
                      ("api_key", Json.str "k1")])],
         Json.obj [("name", Json.str "target"), ("credentials",
            Json.obj [("endpoint", Json.obj [("api_base", Json.str "https://h/b2"),
                      ("api_key", Json.str "k2")])])]])])
      [Json.obj [("name", Json.str "other"), ("credentials",
          Json.obj [("api_base", Json.str "https://h/b1/openai"),
                    ("api_key", Json.str "k1")])],
       Json.obj [("name", Json.str "target"), ("credentials",
          Json.obj [("endpoint", Json.obj [("api_base", Json.str "https://h/b2"),
                    ("api_key", Json.str "k2")])])]] rfl).2.1 "target"
      [Json.obj [("name", Json.str "other"), ("credentials",
          Json.obj [("api_base", Json.str "https://h/b1/openai"),
                    ("api_key", Json.str "k1")])]]
      (Json.obj [("name", Json.str "target"), ("credentials",
          Json.obj [("endpoint", Json.obj [("api_base", Json.str "https://h/b2"),
                    ("api_key", Json.str "k2")])])])
      [] rfl rfl (by decide)
    exact hsel.trans rfl
  · have hsel := (tanzu_c8_binding_selection (Json.obj [("genai", Json.arr
        [Json.obj [("name", Json.str "other"), ("credentials",
            Json.obj [("api_base", Json.str "https://h/b1/openai"),
                      ("api_key", Json.str "k1")])],
         Json.obj [("name", Json.str "target"), ("credentials",
            Json.obj [("endpoint", Json.obj [("api_base", Json.str "https://h/b2"),
                      ("api_key", Json.str "k2")])])]])])
      [Json.obj [("name", Json.str "other"), ("credentials",
          Json.obj [("api_base", Json.str "https://h/b1/openai"),
                    ("api_key", Json.str "k1")])],
       Json.obj [("name", Json.str "target"), ("credentials",
          Json.obj [("endpoint", Json.obj [("api_base", Json.str "https://h/b2"),
                    ("api_key", Json.str "k2")])])]] rfl).2.2
      (Json.obj [("name", Json.str "other"), ("credentials",
          Json.obj [("api_base", Json.str "https://h/b1/openai"),
                    ("api_key", Json.str "k1")])])
      [Json.obj [("name", Json.str "target"), ("credentials",
          Json.obj [("endpoint", Json.obj [("api_base", Json.str "https://h/b2"),
                    ("api_key", Json.str "k2")])])]] rfl
    exact hsel.trans rfl
  · exact (tanzu_c8_binding_selection (Json.obj [("genai", Json.arr
        [Json.obj [("name", Json.str "other"), ("credentials",
            Json.obj [("api_base", Json.str "https://h/b1/openai"),
                      ("api_key", Json.str "k1")])]])])
      [Json.obj [("name", Json.str "other"), ("credentials",
          Json.obj [("api_base", Json.str "https://h/b1/openai"),
                    ("api_key", Json.str "k1")])]] rfl).1 "missing" (by decide)

/-! ## Claim C9 -/

/-- C9: `filter_chat_models` keeps exactly the names of entries having some
capability tag case-insensitively equal to chat, tools or completion; in
particular an EMBEDDING-only entry is excluded while chat-tagged entries
are included regardless of case. -/
theorem tanzu_c9_filter_chat :
    (∀ (models : List AdvertisedModel) (x : String),
      x ∈ filter_chat_models models ↔
        ∃ m, m ∈ models ∧ m.name = x ∧ ∃ c, c ∈ m.capabilities ∧
          (eqIgnoreAsciiCase c "chat" = true ∨ eqIgnoreAsciiCase c "tools" = true ∨
            eqIgnoreAsciiCase c "completion" = true))
    ∧ filter_chat_models [⟨"llama", ["CHAT", "TOOLS"]⟩, ⟨"embed", ["EMBEDDING"]⟩,
        ⟨"qwen", ["chat"]⟩] = ["llama", "qwen"] := by
  constructor
  · intro models x
    unfold filter_chat_models
    rw [List.mem_map]
    constructor
    · rintro ⟨m, hm, hname⟩
      rw [List.mem_filter] at hm
      obtain ⟨hmem, hcap⟩ := hm
      rw [List.any_eq_true] at hcap
      obtain ⟨c, hc, hcc⟩ := hcap
      refine ⟨m, hmem, hname, c, hc, ?_⟩
      simpa [Bool.or_eq_true, or_assoc] using hcc
    · rintro ⟨m, hmem, hname, c, hc, hcc⟩
      refine ⟨m, ?_, hname⟩
      rw [List.mem_filter]
      refine ⟨hmem, ?_⟩
      rw [List.any_eq_true]
      exact ⟨c, hc, by simpa [Bool.or_eq_true, or_assoc] using hcc⟩
  · decide
